import Mathlib

/-!
Verification of the icecake static site generator (src/icecake.py).

The Python module is shallowly embedded: the filesystem is an explicit
association list from path strings to file contents, every stateful object
(the path cache, the site) is a record threaded through the operations, and
the external collaborators (the Jinja template engine, the Markdown
renderer) are function parameters.  Path manipulation mirrors the posixpath
functions the module imports (join, normpath, relpath, basename, dirname,
splitext); they are implemented over the underlying character lists so that
every definition is executable and kernel-reducible.
-/

deriving instance DecidableEq for Except

namespace Icecake

/-! ## Character-list string primitives

String operations are modelled over List Char (String.data) so that all
definitions reduce structurally.  Each function documents the Python
primitive it embeds. -/

/-- Model of Python str.startswith: is the second argument a leading part of
the first.  Defined by direct recursion for easy reasoning. -/
def isPrefixL : List Char → List Char → Bool
  | [], _ => true
  | _ :: _, [] => false
  | a :: as, b :: bs => if a = b then isPrefixL as bs else false

def pyStartswith (s pre : String) : Bool := isPrefixL pre.data s.data

def isSuffixL (a b : List Char) : Bool := isPrefixL a.reverse b.reverse

def pyEndswith (s suf : String) : Bool := isSuffixL suf.data s.data

/-- Model of Python str.split(sep) for a single-character separator:
adjacent separators produce empty pieces, and the empty string yields one
empty piece, exactly as in Python. -/
def splitSepL (sep : Char) : List Char → List (List Char)
  | [] => [[]]
  | c :: cs =>
    let r := splitSepL sep cs
    if c = sep then [] :: r
    else
      match r with
      | [] => [[c]]
      | a :: as => (c :: a) :: as

def pySplitChar (sep : Char) (s : String) : List String :=
  (splitSepL sep s.data).map (fun l => ⟨l⟩)

/-- Characters Python str.strip removes: the str.isspace set restricted to
the ASCII range used by this program. -/
def isPySpace (c : Char) : Bool :=
  c = ' ' ∨ c = '\t' ∨ c = '\n' ∨ c = '\r' ∨ c = '\x0b' ∨ c = '\x0c'

/-- Model of Python str.strip(): drop whitespace from both ends. -/
def pyStrip (s : String) : String :=
  ⟨(((s.data.dropWhile isPySpace).reverse.dropWhile isPySpace).reverse)⟩

/-- Model of Python str.lower() on the ASCII strings this program handles. -/
def pyLower (s : String) : String := ⟨s.data.map Char.toLower⟩

/-- Model of Python text.split(delim, 1): split at the first occurrence of a
(non-empty) delimiter, or return none when the delimiter does not occur. -/
def splitOnceL (delim : List Char) : List Char → Option (List Char × List Char)
  | [] => if delim = [] then some ([], []) else none
  | c :: cs =>
    if isPrefixL delim (c :: cs) ∧ delim ≠ [] then
      some ([], (c :: cs).drop delim.length)
    else
      match splitOnceL delim cs with
      | some (a, b) => some (c :: a, b)
      | none => none

def splitOnceStr (delim s : String) : Option (String × String) :=
  match splitOnceL delim.data s.data with
  | some (a, b) => some (⟨a⟩, ⟨b⟩)
  | none => none

/-- Model of Python str.replace(pat, rep) for a non-empty pattern (the empty
pattern leaves the string unchanged here; the program never uses one). -/
def strReplaceL (pat rep : List Char) : List Char → List Char
  | [] => []
  | c :: cs =>
    if h : pat ≠ [] ∧ isPrefixL pat (c :: cs) then
      rep ++ strReplaceL pat rep ((c :: cs).drop pat.length)
    else
      c :: strReplaceL pat rep cs
termination_by l => l.length
decreasing_by
  · simp only [List.length_drop, List.length_cons]
    have : 0 < pat.length := List.length_pos.mpr h.1
    omega
  · simp only [List.length_cons]
    omega

def pyReplace (s pat rep : String) : String := ⟨strReplaceL pat.data rep.data s.data⟩

/-- Code-point lexicographic strict order on character lists: the order
Python uses to compare strings. -/
def strLtL : List Char → List Char → Bool
  | [], [] => false
  | [], _ :: _ => true
  | _ :: _, [] => false
  | a :: as, b :: bs =>
    if a.val < b.val then true
    else if b.val < a.val then false
    else strLtL as bs

def strLeB (a b : String) : Bool := ! strLtL b.data a.data

/-- Stable insertion used by the sort model. -/
def stableInsert (le : α → α → Bool) (x : α) : List α → List α
  | [] => [x]
  | y :: ys => if le x y then x :: y :: ys else y :: stableInsert le x ys

/-- Stable sort: the model for Python sorted()/list.sort() without reverse. -/
def stableSort (le : α → α → Bool) : List α → List α
  | [] => []
  | x :: xs => stableInsert le x (stableSort le xs)

/-- Model of Python list.sort(key, reverse): CPython implements reverse=True
by reversing, sorting stably, and reversing back. -/
def pyListSort (le : α → α → Bool) (rev : Bool) (l : List α) : List α :=
  if rev then (stableSort le l.reverse).reverse else stableSort le l

/-! ## posixpath model

The module imports join, normpath, relpath, basename, dirname, splitext
from os.path; the embeddings below follow the CPython posixpath source. -/

/-- Model of posixpath.join for two components. -/
def pyJoin (a b : String) : String :=
  if pyStartswith b "/" then b
  else if a = "" ∨ pyEndswith a "/" then a ++ b
  else a ++ "/" ++ b

/-- The component stack computed by posixpath.normpath: empty and "."
components vanish and ".." pops, with the absolute/relative distinction of
the original algorithm. -/
def normStack (isAbs : Bool) (comps : List String) : List String :=
  (comps.foldl
    (fun acc comp =>
      if comp = "" ∨ comp = "." then acc
      else if comp ≠ ".." ∨ ((!isAbs) ∧ acc = []) ∨ acc.head? = some ".." then comp :: acc
      else
        match acc with
        | [] => []
        | _ :: rest => rest)
    []).reverse

def joinWithSlash : List String → String
  | [] => ""
  | [a] => a
  | a :: rest => a ++ "/" ++ joinWithSlash rest

/-- Model of posixpath.normpath, including the special treatment of exactly
two leading slashes and the empty path collapsing to ".". -/
def pyNormpath (s : String) : String :=
  let l := s.data
  let slashes : Nat :=
    if isPrefixL ['/', '/'] l ∧ ¬ isPrefixL ['/', '/', '/'] l then 2
    else if isPrefixL ['/'] l then 1 else 0
  let comps := (splitSepL '/' l).map (fun c => (⟨c⟩ : String))
  let body := joinWithSlash (normStack (slashes ≠ 0) comps)
  let out := ⟨List.replicate slashes '/'⟩ ++ body
  if out = "" then "." else out

/-- Model of posixpath.basename: everything after the last slash. -/
def pyBasename (s : String) : String :=
  ⟨((s.data.reverse.takeWhile (fun c => c ≠ '/')).reverse)⟩

/-- Model of posixpath.dirname: everything before the last slash, with
trailing slashes stripped unless the result is all slashes. -/
def pyDirname (s : String) : String :=
  let head := (s.data.reverse.dropWhile (fun c => c ≠ '/')).reverse
  if head ≠ [] ∧ head.any (fun c => c ≠ '/') then
    ⟨(head.reverse.dropWhile (fun c => c = '/')).reverse⟩
  else ⟨head⟩

/-- Model of posixpath.splitext: split off the extension at the last dot of
the basename, provided some non-dot character precedes it. -/
def pySplitext (p : String) : String × String :=
  let base := (pyBasename p).data
  let rev := base.reverse
  let extRev := rev.takeWhile (fun c => c ≠ '.')
  match rev.dropWhile (fun c => c ≠ '.') with
  | [] => (p, "")
  | _ :: stemRev =>
    if stemRev.any (fun c => c ≠ '.') then
      let ext : List Char := '.' :: extRev.reverse
      (⟨p.data.take (p.data.length - ext.length)⟩, ⟨ext⟩)
    else (p, "")

/-- Normalized components of a path, as posixpath.relpath sees them after
abspath: leading slashes are irrelevant because both arguments go through
the same current directory. -/
def normCompsOf (p : String) : List String :=
  normStack true ((splitSepL '/' p.data).map (fun c => (⟨c⟩ : String)))

def commonPrefLen : List String → List String → Nat
  | a :: as, b :: bs => if a = b then commonPrefLen as bs + 1 else 0
  | _, _ => 0

/-- Model of posixpath.relpath(path, start) for the argument shapes the
program uses: both paths absolute, or both relative with no leading "..",
so the current working directory cancels out. -/
def relpathStr (path start : String) : String :=
  let pl := normCompsOf path
  let sl := normCompsOf start
  let i := commonPrefLen pl sl
  let rel := List.replicate (sl.length - i) ".." ++ pl.drop i
  if rel = [] then "." else joinWithSlash rel

/-- Model of os.path.abspath: normpath of the path joined to the current
working directory. -/
def abspathFrom (curdir p : String) : String :=
  pyNormpath (pyJoin curdir p)

/-! ## Association lists

The Python dicts (cache.files, cache.templates, metadata tables) are
embedded as insertion-ordered association lists: assignment to an existing
key updates it in place, assignment to a fresh key appends, deletion
removes the entry.  This matches dict iteration order. -/

def assocGet : List (String × String) → String → Option String
  | [], _ => none
  | (k, v) :: rest, key => if k = key then some v else assocGet rest key

def assocSet : List (String × String) → String → String → List (String × String)
  | [], key, val => [(key, val)]
  | (k, v) :: rest, key, val =>
    if k = key then (k, val) :: rest else (k, v) :: assocSet rest key val

def assocDel : List (String × String) → String → List (String × String)
  | [], _ => []
  | (k, v) :: rest, key => if k = key then rest else (k, v) :: assocDel rest key

/-! ## The filesystem model

A disk is a finite map from path strings to file contents.  isfile tests
and open().read() are both lookups; os.walk enumerates the keys strictly
below a directory. -/

def Disk := List (String × String)

def diskGet (disk : Disk) (p : String) : Option String := assocGet disk p

/-- Model of ls_relative (icecake.py lines 43-56): all files below the
given directory, as paths relative to it, sorted so the order is
deterministic.  A missing directory simply yields the empty list, matching
the isdir guard. -/
def lsRelative (disk : Disk) (listPath : String) : List String :=
  let found := disk.filterMap
    (fun pc => if pyStartswith pc.1 (listPath ++ "/") then some (relpathStr pc.1 listPath) else none)
  stableSort strLeB found

/-! ## ContentCache (icecake.py lines 59-111)

The PathCache of the specification.  root is the directory the cache was
constructed with; files maps relative paths to contents; pages is declared
by the source and never used; templates maps template-relative names to
contents. -/

structure ContentCache where
  root : String
  files : List (String × String)
  pages : List (String × String)
  templates : List (String × String)
deriving DecidableEq, Repr

/-- peek (lines 66-74): fresh data from disk without storing it. -/
def ContentCache.peek (c : ContentCache) (disk : Disk) (filename : String) : Option String :=
  diskGet disk (pyJoin c.root filename)

/-- set (lines 85-92): store under files, and project into templates under
the content-relative key (unless the extension is ".md") or the
layouts-relative key.  The two prefix tests are independent ifs, as in the
source. -/
def ContentCache.set (c : ContentCache) (filename content : String) : ContentCache :=
  let t1 :=
    if pyStartswith filename "content" ∧ (pySplitext filename).2 ≠ ".md" then
      assocSet c.templates (relpathStr filename "content") content
    else c.templates
  let t2 :=
    if pyStartswith filename "layouts" then
      assocSet t1 (relpathStr filename "layouts") content
    else t1
  { c with templates := t2, files := assocSet c.files filename content }

/-- read (lines 76-83): peek, and store on success. -/
def ContentCache.read (c : ContentCache) (disk : Disk) (filename : String) :
    ContentCache × Option String :=
  match c.peek disk filename with
  | some content => (c.set filename content, some content)
  | none => (c, none)

/-- get (lines 94-97): pure lookup. -/
def ContentCache.get (c : ContentCache) (filename : String) : Option String :=
  assocGet c.files filename

/-- The mutation performed by delete (lines 99-100): remove from files
only.  templates is untouched, exactly as in the source. -/
def ContentCache.deleteRaw (c : ContentCache) (filename : String) : ContentCache :=
  { c with files := assocDel c.files filename }

/-- delete (lines 99-100): del files[filename]; raises KeyError (modelled
as none) when the key is absent. -/
def ContentCache.delete (c : ContentCache) (filename : String) : Option ContentCache :=
  if (assocGet c.files filename).isSome then some (c.deleteRaw filename) else none

/-- move (lines 102-106): no-op when old is absent, otherwise set the new
path to the old content and delete the old path.  The inner delete always
succeeds because old is present (set never removes entries). -/
def ContentCache.move (c : ContentCache) (old new : String) : ContentCache :=
  match c.get old with
  | none => c
  | some v => ((c.set new v).deleteRaw old)

/-- One directory of warm (lines 108-111): read every file below
root/path, in ls_relative order. -/
def ContentCache.warmDir (c : ContentCache) (disk : Disk) (path : String) : ContentCache :=
  (lsRelative disk (pyJoin c.root path)).foldl
    (fun acc file => (acc.read disk (pyJoin path file)).1) c

/-- warm (lines 108-111): eagerly read everything under content and
layouts. -/
def ContentCache.warm (c : ContentCache) (disk : Disk) : ContentCache :=
  (c.warmDir disk "content").warmDir disk "layouts"

/-! ## Metadata parsing (icecake.py lines 202-238)

parse_metadata prepends a section header and feeds the text to the
standard-library configparser, an external collaborator.  parseIniLines
embeds its behaviour on the simple line-oriented input this program
produces: one key/value pair per line split at the first ":" or "=", keys
lowercased, keys and values stripped; section headers, comments and blank
lines contribute nothing. -/

def splitKV (s : String) : Option (String × String) :=
  let l := s.data
  let pre := l.takeWhile (fun c => c ≠ ':' ∧ c ≠ '=')
  match l.drop pre.length with
  | [] => none
  | _ :: rest => some (⟨pre⟩, ⟨rest⟩)

def parseIniLines (text : String) : List (String × String) :=
  (pySplitChar '\n' text).foldl
    (fun acc line =>
      let t := pyStrip line
      if t = "" then acc
      else if pyStartswith t "[" then acc
      else if pyStartswith t "#" ∨ pyStartswith t ";" then acc
      else
        match splitKV t with
        | some (k, v) => assocSet acc (pyLower (pyStrip k)) (pyStrip v)
        | none => acc)
    []

/-! ## Page (icecake.py lines 114-297)

The Site back-reference a Python Page carries is replaced by the site data
(root, template mapping, page list) being passed to the operations that
consult it. -/

structure Page where
  parsed : Bool
  pabspath : String
  filepath : String
  folder : String
  slug : String
  ext : String
  url : String
  date : Option String := none
  tags : Option (List String) := none
  template : Option String := none
  title : Option String := none
  body : Option String := none
  content : Option String := none
  rendered : Option String := none
deriving DecidableEq, Repr

/-- The page-like extensions of _get_url / get_target / render. -/
def pageLikeExt (ext : String) : Prop :=
  ext = ".html" ∨ ext = ".md" ∨ ext = ".markdown"

instance (ext : String) : Decidable (pageLikeExt ext) := by
  unfold pageLikeExt; infer_instance

/-- _get_url (lines 176-183): folder plus slug, normalized with a trailing
slash for page-like extensions, folder plus slug+ext otherwise. -/
def urlOf (folder slug ext : String) : String :=
  if pageLikeExt ext then "/" ++ pyNormpath (pyJoin folder slug) ++ "/"
  else "/" ++ pyJoin folder (slug ++ ext)

/-- Page.__init__ (lines 124-151) together with _get_folder,
_get_default_slug and _get_extension: identity fields are computed from the
file path relative to the content root; the slug "index" collapses to "";
the url is evaluated once here and again after metadata parsing.  curdir
models os.getcwd(), which abspath consults for relative arguments. -/
def Page.init (curdir siteRoot filepath : String) : Page :=
  let fp := relpathStr filepath (pyJoin siteRoot "content")
  let folder := pyDirname fp
  let slug0 := (pySplitext (pyBasename fp)).1
  let slug := if slug0 = "index" then "" else slug0
  let ext := (pySplitext fp).2
  { parsed := false
    pabspath := abspathFrom curdir filepath
    filepath := fp
    folder := folder
    slug := slug
    ext := ext
    url := urlOf folder slug ext }

/-- get_target (lines 185-200): a usage error before metadata parsing;
afterwards folder/slug/index.html for page-like extensions and
folder/(slug+ext) otherwise, both passed through normpath. -/
def Page.get_target (p : Page) : Except String String :=
  if ¬ p.parsed then
    Except.error "This should not be called before metadata is parsed"
  else if pageLikeExt p.ext then
    Except.ok (pyNormpath (pyJoin (pyJoin p.folder p.slug) "index.html"))
  else
    Except.ok (pyNormpath (pyJoin p.folder (p.slug ++ p.ext)))

/-- parse_metadata (lines 202-238): look up each recognized key in the
parsed table; tags is split on the space character (empty list when
absent); for the other keys an absent entry keeps the current value when
that value is non-null (which only ever applies to slug) and assigns null
otherwise; finally the url is recomputed and parsed is set. -/
def Page.parse_metadata (p : Page) (text : String) : Page :=
  let values := parseIniLines ("[Metadata]\n" ++ text)
  let tags :=
    match assocGet values "tags" with
    | some v => pySplitChar ' ' v
    | none => []
  let date := match assocGet values "date" with | some v => some v | none => p.date
  let title := match assocGet values "title" with | some v => some v | none => p.title
  let slug := match assocGet values "slug" with | some v => v | none => p.slug
  let template := match assocGet values "template" with | some v => some v | none => p.template
  { p with
    tags := some tags
    date := date
    title := title
    slug := slug
    template := template
    url := urlOf p.folder slug p.ext
    parsed := true }

/-- parse_string (lines 269-288): split off the front matter at the first
"++++"; with front matter, parse it and keep the stripped remainder as the
body; without it the whole stripped text is the body and parsed is set
immediately (the missing-delimiter warning on Markdown files is a log line
and carries no state). -/
def Page.parse_string (curdir siteRoot filepath text : String) : Page :=
  let page := Page.init curdir siteRoot filepath
  match splitOnceStr "++++" text with
  | some (pre, post) =>
    let page := page.parse_metadata (pyStrip pre)
    { page with body := some (pyStrip post) }
  | none =>
    { page with body := some (pyStrip text), parsed := true }

/-- parse_file (lines 290-297): read the file and feed it to parse_string;
none models the IOError of a missing file. -/
def Page.parse_file (curdir siteRoot : String) (disk : Disk) (filepath : String) :
    Option Page :=
  (diskGet disk filepath).map (fun content => Page.parse_string curdir siteRoot filepath content)

/-- The external Jinja environment: given the template mapping the
environment was loaded with, a template name, the page whose attribute
dictionary forms the context, and the pagedata of the site object the
context also exposes, produce the rendered string. -/
def Renderer := List (String × String) → String → Page → List Page → String

/-- render (lines 240-257): Markdown pages get their body converted by the
external markdown renderer (mdFn) into content and use the template
metadata value or markdown.html; every other page uses its own relative
path as the template.  The render result is stored on the page and
returned.  sitePages is the page list of the site object the template
context exposes, as of this call. -/
def pageRender (mdFn : String → String) (renderer : Renderer)
    (templates : List (String × String)) (sitePages : List Page) (p : Page) :
    Page × String :=
  if p.ext = ".md" ∨ p.ext = ".markdown" then
    let p1 := { p with content := some (mdFn (p.body.getD "")) }
    let tname := match p1.template with | some t => t | none => "markdown.html"
    let out := renderer templates tname p1 sitePages
    ({ p1 with rendered := some out }, out)
  else
    let out := renderer templates p.filepath p sitePages
    ({ p with rendered := some out }, out)

/-! ## Site (icecake.py lines 300-461)

The Jinja environment and the Markdown plugin list are external and appear
as the Renderer and mdFn parameters of the operations that render.  The
model assumes the site root is given as a normalized absolute path, so the
abspath stored on the Site and the raw root stored on the cache coincide
with it. -/

structure Site where
  root : String
  cache : ContentCache
  pagedata : List Page
deriving DecidableEq, Repr

/-- Site.__init__ (lines 320-331): store the absolute root, construct the
cache over the raw root and warm it; pagedata starts empty. -/
def Site.create (curdir root : String) (disk : Disk) : Site :=
  { root := abspathFrom curdir root
    cache := ContentCache.warm { root := root, files := [], pages := [], templates := [] } disk
    pagedata := [] }

/-- get_pages (lines 333-347): walk the cache's file keys in order; for
every key under content naming an existing file, parse it (parse_file
opens the disk directly), render it against the site as it stands, and
append it to pagedata.  The fold starts from the existing pagedata because
the source appends to self.pagedata without clearing it. -/
def Site.get_pages (s : Site) (curdir : String) (disk : Disk)
    (mdFn : String → String) (renderer : Renderer) : Site :=
  let pd := s.cache.files.foldl
    (fun pd fc =>
      if pyStartswith fc.1 "content" then
        match Page.parse_file curdir s.root disk (pyJoin s.root fc.1) with
        | some page =>
          let pr := pageRender mdFn renderer s.cache.templates pd page
          pd ++ [pr.1]
        | none => pd
      else pd)
    s.pagedata
  { s with pagedata := pd }

/-- copy_static (lines 349-367): every file below static is copied byte
for byte to the corresponding path under output.  The result is the list
of (path, bytes) writes. -/
def Site.copy_static (s : Site) (curdir : String) (disk : Disk) : List (String × String) :=
  let staticDir := abspathFrom curdir (pyJoin s.root "static")
  disk.filterMap
    (fun pc =>
      if pyStartswith pc.1 (staticDir ++ "/") then
        some (pyNormpath (pyJoin (pyJoin s.root "output") ("." ++ pyReplace pc.1 staticDir "")), pc.2)
      else none)

/-- build (lines 369-387): refresh pagedata through get_pages, then write
every page's render to output joined with its target, and finally copy the
static tree.  The writes are returned in program order; a get_target usage
error aborts the build as the uncaught exception would.  Each loop
iteration re-renders its page against the completed pagedata. -/
def Site.build (s : Site) (curdir : String) (disk : Disk)
    (mdFn : String → String) (renderer : Renderer) :
    Except String (Site × List (String × String)) := do
  let s1 := s.get_pages curdir disk mdFn renderer
  let acc ← s1.pagedata.foldlM
    (fun (acc : List Page × List (String × String)) page => do
      let target ← page.get_target
      let pr := pageRender mdFn renderer s1.cache.templates s1.pagedata page
      pure (acc.1 ++ [pr.1], acc.2 ++ [(pyJoin (pyJoin s1.root "output") target, pr.2)]))
    (([] : List Page), ([] : List (String × String)))
  pure ({ s1 with pagedata := acc.1 }, acc.2 ++ s1.copy_static curdir disk)

/-- The sort key of Site.pages: getattr(page, order).  An attribute that is
unset (None) would fail to compare in Python; the model substitutes the
empty string, which no claim depends on. -/
def pageSortKey (order : String) (p : Page) : String :=
  match order with
  | "date" => p.date.getD ""
  | "title" => p.title.getD ""
  | "slug" => p.slug
  | "template" => p.template.getD ""
  | "url" => p.url
  | "filepath" => p.filepath
  | "folder" => p.folder
  | "ext" => p.ext
  | "body" => p.body.getD ""
  | _ => ""

/-- The sort performed by Site.pages when order is given: a leading "-"
reverses, the rest names the key attribute. -/
def pySortByOrder (order : String) (items : List Page) : List Page :=
  let ro : Bool × String :=
    match order.data with
    | '-' :: rest => (true, ⟨rest⟩)
    | _ => (false, order)
  pyListSort (fun a b => strLeB (pageSortKey ro.2 a) (pageSortKey ro.2 b)) ro.1 items

/-- The limit step of Site.pages: only a positive limit truncates. -/
def pyTruncate (limit : Option Int) (items : List Page) : List Page :=
  match limit with
  | some l => if 0 < l then items.take l.toNat else items
  | none => items

/-- pages (lines 398-420): filter by filepath prefix, then by tag
membership, then sort, then truncate.  items starts as an alias of
self.pagedata and each filter rebinds it to a fresh list, so the in-place
sort hits self.pagedata exactly when neither filter ran; the returned
site records that effect.  (A tag filter over a page whose tags is unset
would raise in Python; the model reads it as the empty list.) -/
def Site.pages (s : Site) (pathF tagF : Option String) (limit : Option Int)
    (order : Option String) : Site × List Page :=
  let items0 := s.pagedata
  let items1 :=
    match pathF with
    | some pa => items0.filter (fun p => pyStartswith p.filepath pa)
    | none => items0
  let items2 :=
    match tagF with
    | some t => items1.filter (fun p => (p.tags.getD []).contains t)
    | none => items1
  match order with
  | none => (s, pyTruncate limit items2)
  | some o =>
    let sorted := pySortByOrder o items2
    if pathF = none ∧ tagF = none then
      ({ s with pagedata := sorted }, pyTruncate limit sorted)
    else (s, pyTruncate limit sorted)

/-! ## Handler (icecake.py lines 464-490)

The watchdog event handler.  Events carry the source path; the handler
reaches the site through a class attribute, here an explicit argument. -/

/-- on_deleted (lines 472-475): when the deleted path lies under the
site's content or layouts directory, shutil.rmtree is invoked on
event.src_path itself; the returned value is the path handed to rmtree,
none when the event is ignored. -/
def Handler.on_deleted (s : Site) (src : String) : Option String :=
  if pyStartswith src (pyJoin s.root "content") ∨ pyStartswith src (pyJoin s.root "layouts") then
    some src
  else none

/-- on_modified (lines 477-487): compare the cached value (looked up
before the comparison's right operand runs) with a fresh read that also
updates the cache; when they differ, parse the cache's now-current value
into a Page and render it to disk.  The second component lists the
(path, data) argument of each Page.parse_string + render_to_disk
invocation, so its length is the number of re-renders. -/
def Handler.on_modified (disk : Disk) (s : Site) (src : String) :
    Site × List (String × Option String) :=
  let path := relpathStr src s.root
  let old := s.cache.get path
  let rd := s.cache.read disk path
  let s1 := { s with cache := rd.1 }
  if old ≠ rd.2 then
    (s1, [(path, rd.1.get path)])
  else (s1, [])

/-! ## The cache projection invariant (claim C1) -/

/-- A templates entry (k, v) is backed when some currently-present files
entry holds v under a path that set would project to k: a non-".md" path
under content with content-relative key k, or a path under layouts with
layouts-relative key k. -/
def templateBacked (c : ContentCache) (k v : String) : Prop :=
  ∃ p, assocGet c.files p = some v ∧
    ((pyStartswith p "content" ∧ (pySplitext p).2 ≠ ".md" ∧ relpathStr p "content" = k) ∨
     (pyStartswith p "layouts" ∧ relpathStr p "layouts" = k))

/-- The invariant of claim C1: every templates entry is the projection of a
currently-present files entry. -/
def TemplatesProjection (c : ContentCache) : Prop :=
  ∀ k v, assocGet c.templates k = some v → templateBacked c k v

/-! ## Spec-side definition for claim C7 -/

/-- The specification's words for the tags field: the value split on
whitespace into an ordered sequence of strings, i.e. maximal runs of
non-whitespace characters (Python str.split() with no argument). -/
def splitWsSpec (s : String) : List String :=
  ((s.data.foldr
      (fun c acc =>
        if isPySpace c then [] :: acc
        else
          match acc with
          | [] => [[c]]
          | a :: as => (c :: a) :: as)
      []).filter (fun l => l ≠ [])).map (fun l => (⟨l⟩ : String))

/-! ## Concrete fixtures used by witnesses and counterexamples -/

def emptyCacheS : ContentCache := { root := "/s", files := [], pages := [], templates := [] }

/-- The cache state reached by set then delete on layouts/a.html: the
files entry is gone but the template projection remains. -/
def cacheDead : ContentCache :=
  { root := "/s", files := [], pages := [], templates := [("a.html", "X")] }

def siteC2fix : Site :=
  { root := "/r"
    cache := { root := "/r", files := [("content/a.html", "A")], pages := [],
               templates := [("a.html", "A")] }
    pagedata := [] }

def diskC2fix : Disk := [("/r/content/a.html", "B")]

def siteC3fix : Site :=
  { root := "/site"
    cache := { root := "/site", files := [], pages := [], templates := [] }
    pagedata := [] }

/-- A one-page project: a single content file and nothing else. -/
def diskOnePage : Disk := [("/s/content/index.html", "hello")]

/-- The identity stands in for the external Markdown renderer in concrete
runs. -/
def mdIdModel : String → String := fun s => s

/-- A template that shows the number of pages the site object carries:
site.pages() and len() are ordinary Jinja expressions, so this renderer is
realizable by an ordinary template in the repository's scaffold. -/
def lenRenderer : Renderer := fun _ _ _ sitePages => toString sitePages.length

def buildWritesOf (r : Except String (Site × List (String × String))) :
    List (String × String) :=
  match r with
  | Except.ok pr => pr.2
  | Except.error _ => []

def buildSiteOf (fallback : Site) (r : Except String (Site × List (String × String))) : Site :=
  match r with
  | Except.ok pr => pr.1
  | Except.error _ => fallback

def siteB0 : Site := Site.create "/s" "/s" diskOnePage

def siteB1 : Site := buildSiteOf siteB0 (siteB0.build "/s" diskOnePage mdIdModel lenRenderer)

def siteG1 : Site := siteB0.get_pages "/s" diskOnePage mdIdModel lenRenderer

def siteG2 : Site := siteG1.get_pages "/s" diskOnePage mdIdModel lenRenderer

/-- A non-Markdown content page whose metadata overrides the slug with a
path needing normalization. -/
def pageC5fix : Page :=
  Page.parse_string "/site" "/site" "/site/content/css/style.css"
    "slug: ./style\n++++\nbody"

/-- A top-level index content file. -/
def pageTopIndex : Page := Page.init "/site" "/site" "/site/content/index.md"

/-- A bare Markdown page used to exercise parse_metadata. -/
def pageMdBase : Page := Page.init "/s" "/s" "/s/content/a.md"

def pageQa : Page :=
  { Page.init "/s" "/s" "/s/content/a.md" with title := some "aa", parsed := true }

def pageQb : Page :=
  { Page.init "/s" "/s" "/s/content/b.md" with title := some "bb", parsed := true }

def siteQfix : Site := { root := "/s", cache := emptyCacheS, pagedata := [pageQb, pageQa] }

/-! ## Helper lemmas -/

theorem assocGet_assocSet (m : List (String × String)) (k v q : String) :
    assocGet (assocSet m k v) q = if q = k then some v else assocGet m q := by
  induction m with
  | nil =>
    by_cases h : q = k
    · subst h
      simp [assocSet, assocGet]
    · have h' : ¬ k = q := fun hh => h hh.symm
      simp only [assocSet, assocGet, if_neg h, if_neg h']
  | cons kv rest ih =>
    obtain ⟨k1, v1⟩ := kv
    simp only [assocSet]
    by_cases h1 : k1 = k
    · subst h1
      rw [if_pos rfl]
      by_cases h2 : q = k1
      · subst h2
        simp [assocGet]
      · have h2' : ¬ k1 = q := fun hh => h2 hh.symm
        simp only [assocGet, if_neg h2, if_neg h2']
    · rw [if_neg h1]
      by_cases h2 : k1 = q
      · subst h2
        simp [assocGet, h1]
      · simp only [assocGet, if_neg h2]
        rw [ih]

theorem not_content_and_layouts (s : String) :
    ¬ (pyStartswith s "content" ∧ pyStartswith s "layouts") := by
  rintro ⟨h1, h2⟩
  have e1 : "content".data = ['c', 'o', 'n', 't', 'e', 'n', 't'] := rfl
  have e2 : "layouts".data = ['l', 'a', 'y', 'o', 'u', 't', 's'] := rfl
  unfold pyStartswith at h1 h2
  rw [e1] at h1
  rw [e2] at h2
  cases hd : s.data with
  | nil =>
    rw [hd] at h1
    exact absurd h1 (by decide)
  | cons a as =>
    rw [hd] at h1 h2
    simp only [isPrefixL] at h1 h2
    by_cases hca : ('c' : Char) = a
    · by_cases hla : ('l' : Char) = a
      · rw [← hca] at hla
        exact absurd hla (by decide)
      · rw [if_neg hla] at h2
        exact absurd h2 (by decide)
    · rw [if_neg hca] at h1
      exact absurd h1 (by decide)

theorem set_preserves_projection (c : ContentCache) (f v : String)
    (h : TemplatesProjection c) : TemplatesProjection (ContentCache.set c f v) := by
  intro k w hk
  simp only [ContentCache.set] at hk
  have hfiles : (ContentCache.set c f v).files = assocSet c.files f v := rfl
  by_cases hA : (pyStartswith f "content" ∧ (pySplitext f).2 ≠ ".md")
  · by_cases hB : (pyStartswith f "layouts" : Prop)
    · exact absurd ⟨hA.1, hB⟩ (not_content_and_layouts f)
    · rw [if_pos hA, if_neg hB] at hk
      rw [assocGet_assocSet] at hk
      by_cases hkk : k = relpathStr f "content"
      · rw [if_pos hkk] at hk
        refine ⟨f, ?_, Or.inl ⟨hA.1, hA.2, hkk.symm⟩⟩
        rw [hfiles, assocGet_assocSet, if_pos rfl]
        exact congrArg some (Option.some.inj hk).symm ▸ hk
      · rw [if_neg hkk] at hk
        obtain ⟨p, hp, hcase⟩ := h k w hk
        have hpf : p ≠ f := by
          intro hpf
          subst hpf
          rcases hcase with ⟨hpc, hpm, hpk⟩ | ⟨hpl, hpk⟩
          · exact hkk hpk.symm
          · exact not_content_and_layouts p ⟨hA.1, hpl⟩
        refine ⟨p, ?_, hcase⟩
        rw [hfiles, assocGet_assocSet, if_neg hpf]
        exact hp
  · by_cases hB : (pyStartswith f "layouts" : Prop)
    · rw [if_pos hB, if_neg hA] at hk
      rw [assocGet_assocSet] at hk
      by_cases hkk : k = relpathStr f "layouts"
      · rw [if_pos hkk] at hk
        refine ⟨f, ?_, Or.inr ⟨hB, hkk.symm⟩⟩
        rw [hfiles, assocGet_assocSet, if_pos rfl]
        exact hk
      · rw [if_neg hkk] at hk
        obtain ⟨p, hp, hcase⟩ := h k w hk
        have hpf : p ≠ f := by
          intro hpf
          subst hpf
          rcases hcase with ⟨hpc, hpm, hpk⟩ | ⟨hpl, hpk⟩
          · exact hA ⟨hpc, hpm⟩
          · exact hkk hpk.symm
        refine ⟨p, ?_, hcase⟩
        rw [hfiles, assocGet_assocSet, if_neg hpf]
        exact hp
    · rw [if_neg hB, if_neg hA] at hk
      obtain ⟨p, hp, hcase⟩ := h k w hk
      have hpf : p ≠ f := by
        intro hpf
        subst hpf
        rcases hcase with ⟨hpc, hpm, hpk⟩ | ⟨hpl, hpk⟩
        · exact hA ⟨hpc, hpm⟩
        · exact hB hpl
      refine ⟨p, ?_, hcase⟩
      rw [hfiles, assocGet_assocSet, if_neg hpf]
      exact hp

theorem read_preserves_projection (c : ContentCache) (disk : Disk) (f : String)
    (h : TemplatesProjection c) : TemplatesProjection (ContentCache.read c disk f).1 := by
  unfold ContentCache.read
  cases hp : c.peek disk f with
  | some content =>
    simp only []
    exact set_preserves_projection c f content h
  | none =>
    simp only []
    exact h

theorem foldl_read_preserves_projection (disk : Disk) (pref : String) :
    ∀ (l : List String) (c : ContentCache), TemplatesProjection c →
      TemplatesProjection
        (l.foldl (fun acc file => (acc.read disk (pyJoin pref file)).1) c) := by
  intro l
  induction l with
  | nil => intro c h; exact h
  | cons x xs ih =>
    intro c h
    exact ih _ (read_preserves_projection _ _ _ h)

theorem warm_preserves_projection (c : ContentCache) (disk : Disk)
    (h : TemplatesProjection c) : TemplatesProjection (ContentCache.warm c disk) := by
  unfold ContentCache.warm ContentCache.warmDir
  exact foldl_read_preserves_projection disk "layouts" _ _
    (foldl_read_preserves_projection disk "content" _ _ h)

/-! ## Claim C1 -/

/-- C1, corrected.  The operations that add to the cache — set, read and
warm — do preserve the projection property (every templates entry is
backed by a files entry under the content or layouts tree), and move is
literally set-then-delete of the files map; but the claim as stated is
false because delete (and therefore the delete half of move) removes only
the files entry and leaves the templates projection behind, as the
counterexample shows. -/
theorem icecake_C1_amended :
    (∀ c f v, TemplatesProjection c → TemplatesProjection (ContentCache.set c f v)) ∧
    (∀ c disk f, TemplatesProjection c →
      TemplatesProjection (ContentCache.read c disk f).1) ∧
    (∀ c disk, TemplatesProjection c → TemplatesProjection (ContentCache.warm c disk)) ∧
    (∀ c old new v, ContentCache.get c old = some v →
      ContentCache.move c old new = ContentCache.deleteRaw (ContentCache.set c new v) old) := by
  refine ⟨set_preserves_projection, read_preserves_projection, warm_preserves_projection, ?_⟩
  intro c old new v hget
  unfold ContentCache.move
  rw [hget]

/-- C1 counterexample: set layouts/a.html then delete it.  The delete
succeeds, the files map is empty again, yet templates still holds the
projected entry, so after the delete operation templates is not a
projection of a subset of files. -/
theorem icecake_C1_counterexample :
    ContentCache.delete (ContentCache.set emptyCacheS "layouts/a.html" "X") "layouts/a.html" =
      some cacheDead ∧
    ¬ TemplatesProjection cacheDead := by
  constructor
  · decide
  · intro h
    obtain ⟨p, hp, _⟩ := h "a.html" "X" (by decide)
    simp [cacheDead, assocGet] at hp

/-- C1 witness: the preservation half of the amended claim applied to a
concrete set on the empty cache. -/
theorem icecake_C1_witness :
    TemplatesProjection (ContentCache.set emptyCacheS "layouts/base.html" "X") :=
  icecake_C1_amended.1 emptyCacheS "layouts/base.html" "X"
    (fun k v hk => absurd hk (by simp [emptyCacheS, assocGet]))

/-! ## Claim C2 -/

/-- C2, confirmed.  For a modify event on a path whose cached value is a
and whose on-disk content is b: when a and b differ, exactly one
parse_string + render_to_disk invocation happens and its data argument is
b (the comparison's left operand is looked up before read updates the
cache, and the re-parsed data is looked up afterwards, so it is the fresh
content), and the cache entry ends at b; when the on-disk bytes equal the
cached value, no re-render happens and the cache entry still holds a. -/
theorem icecake_C2 (disk : Disk) (s : Site) (src p a b : String)
    (hrel : relpathStr src s.root = p)
    (hcached : s.cache.get p = some a)
    (hdisk : s.cache.peek disk p = some b) :
    (a ≠ b →
      (Handler.on_modified disk s src).2 = [(p, some b)] ∧
      (Handler.on_modified disk s src).1.cache.get p = some b) ∧
    (b = a →
      (Handler.on_modified disk s src).2 = [] ∧
      (Handler.on_modified disk s src).1.cache.get p = some a) := by
  have hget : ∀ content, (s.cache.set p content).get p = some content := by
    intro content
    show assocGet (assocSet s.cache.files p content) p = some content
    rw [assocGet_assocSet, if_pos rfl]
  simp only [Handler.on_modified, ContentCache.read, hrel, hcached, hdisk]
  constructor
  · intro hab
    have hne : some a ≠ some b := fun hh => hab (Option.some.inj hh)
    rw [if_pos hne]
    exact ⟨by rw [hget b], hget b⟩
  · intro hba
    rw [hba]
    rw [if_neg (fun hh : some a ≠ some a => hh rfl)]
    exact ⟨rfl, hget a⟩

/-- C2 witness: a concrete modify event with cached "A" and on-disk "B"
re-renders once from "B" and leaves the cache at "B". -/
theorem icecake_C2_witness :
    (Handler.on_modified diskC2fix siteC2fix "/r/content/a.html").2 =
      [("content/a.html", some "B")] ∧
    (Handler.on_modified diskC2fix siteC2fix "/r/content/a.html").1.cache.get
      "content/a.html" = some "B" :=
  (icecake_C2 diskC2fix siteC2fix "/r/content/a.html" "content/a.html" "A" "B"
    (by decide) (by decide) (by decide)).1 (by decide)

/-! ## Claim C3 -/

/-- C3: the claim is right about the intent and the code is wrong.  For a
delete event under content the handler passes event.src_path itself — the
path that was just deleted, under the content tree — to shutil.rmtree,
rather than the corresponding subtree of output; the rmtree target does
not even lie under the output directory.  (The second half of the claim
holds: an event outside content and layouts is ignored.) -/
theorem icecake_C3_code_eval :
    Handler.on_deleted siteC3fix "/site/content/blog/post.md" =
      some "/site/content/blog/post.md" ∧
    pyStartswith "/site/content/blog/post.md" (pyJoin "/site" "output") = false ∧
    pyJoin (pyJoin "/site" "output") "blog/post.md" = "/site/output/blog/post.md" ∧
    Handler.on_deleted siteC3fix "/site/static/x.css" = none := by decide

/-! ## Claim C5 -/

/-- C5 counterexample: a metadata slug of "./style" on css/style.css.  The
code returns the normalized target css/style.css, while the claim's
"folder/(slug+ext) unchanged" would be css/./style.css. -/
theorem icecake_C5_counterexample :
    pageC5fix.parsed = true ∧ pageC5fix.folder = "css" ∧ pageC5fix.slug = "./style" ∧
    pageC5fix.ext = ".css" ∧
    pageC5fix.get_target = Except.ok "css/style.css" ∧
    pyJoin pageC5fix.folder (pageC5fix.slug ++ pageC5fix.ext) = "css/./style.css" ∧
    ("css/style.css" : String) ≠ "css/./style.css" := by decide

/-- C5, corrected.  get_target is a usage error on every freshly
constructed (unparsed) Page; once parsed is set it returns
normpath(folder/slug/index.html) for the page-like extensions and
normpath(folder/(slug+ext)) for every other extension — the normalization
applies to both branches, so a slug override such as "./style" is
normalized rather than kept unchanged. -/
theorem icecake_C5_amended :
    (∀ curdir root fp, (Page.init curdir root fp).get_target =
      Except.error "This should not be called before metadata is parsed") ∧
    (∀ p : Page, p.parsed = true →
      p.get_target = Except.ok
        (if pageLikeExt p.ext
         then pyNormpath (pyJoin (pyJoin p.folder p.slug) "index.html")
         else pyNormpath (pyJoin p.folder (p.slug ++ p.ext)))) := by
  constructor
  · intro curdir root fp
    simp [Page.init, Page.get_target]
  · intro p hp
    by_cases hext : pageLikeExt p.ext
    · simp [Page.get_target, hp, hext]
    · simp [Page.get_target, hp, hext]

/-- C5 witness: the amended target formula applied to the parsed concrete
page. -/
theorem icecake_C5_witness :
    pageC5fix.parsed = true ∧
    pageC5fix.get_target = Except.ok
      (if pageLikeExt pageC5fix.ext
       then pyNormpath (pyJoin (pyJoin pageC5fix.folder pageC5fix.slug) "index.html")
       else pyNormpath (pyJoin pageC5fix.folder (pageC5fix.slug ++ pageC5fix.ext))) :=
  ⟨by decide, icecake_C5_amended.2 pageC5fix (by decide)⟩

/-! ## Claim C6 -/

/-- C6: the claim states the intent (set never registers a Markdown
content file as a template) and the code falls short of it.  The layouts
projection and the ".md" exclusion hold, and non-Markdown content files
are projected under their content-relative key — but set tests only the
".md" extension, while render (line 248) and the missing-front-matter
warning treat ".markdown" as Markdown too, so a ".markdown" content file
is registered as a template. -/
theorem icecake_C6_code_eval :
    (ContentCache.set emptyCacheS "layouts/base.html" "X").templates = [("base.html", "X")] ∧
    (ContentCache.set emptyCacheS "content/about.md" "Y").templates = emptyCacheS.templates ∧
    (ContentCache.set emptyCacheS "content/data.xml" "Z").templates = [("data.xml", "Z")] ∧
    (ContentCache.set emptyCacheS "content/about.markdown" "Y").templates =
      [("about.markdown", "Y")] := by decide

/-! ## Claim C7 -/

/-- C7 counterexample: a tags value containing a tab.  The code splits only
on the space character, yielding the single item "a\tb", while splitting
on whitespace as the claim states would yield two items. -/
theorem icecake_C7_counterexample :
    (pageMdBase.parse_metadata "tags = a\tb").tags = some ["a\tb"] ∧
    splitWsSpec "a\tb" = ["a", "b"] ∧
    (["a\tb"] : List String) ≠ ["a", "b"] := by decide

/-- C7, corrected.  parse_metadata splits the tags value on each single
space character (so adjacent spaces yield empty items and other
whitespace such as a tab does not separate), and assigns the empty
sequence when the metadata table has no tags entry. -/
theorem icecake_C7_amended :
    (∀ (p : Page) (text v : String),
      assocGet (parseIniLines ("[Metadata]\n" ++ text)) "tags" = some v →
      (p.parse_metadata text).tags = some (pySplitChar ' ' v)) ∧
    (∀ (p : Page) (text : String),
      assocGet (parseIniLines ("[Metadata]\n" ++ text)) "tags" = none →
      (p.parse_metadata text).tags = some []) := by
  constructor
  · intro p text v hv
    simp [Page.parse_metadata, hv]
  · intro p text hv
    simp [Page.parse_metadata, hv]

/-- C7 witness: a concrete space-separated tags value through
parse_metadata. -/
theorem icecake_C7_witness :
    (pageMdBase.parse_metadata "tags = x y").tags = some ["x", "y"] :=
  (icecake_C7_amended.1 pageMdBase "tags = x y" "x y" (by decide)).trans (by decide)

/-! ## Claim C8 -/

/-- C8 counterexample: a top-level content/index.md.  Its folder is the
empty string, its slug collapses to "", but its URL is "/./" — the
normpath of the empty join — and not "/", the folder's own URL. -/
theorem icecake_C8_counterexample :
    pageTopIndex.folder = "" ∧ pageTopIndex.slug = "" ∧
    pageTopIndex.url = "/./" ∧ ("/./" : String) ≠ "/" := by decide

/-- C8, corrected.  For a page-like content file whose filename without
extension is "index", the slug is always the empty string; and whenever
the containing folder is a normalized non-empty path (normpath of
folder ++ "/" gives the folder back), the URL is /folder/ — the folder's
own URL.  For the top-level index file (empty folder) the URL instead
comes out as "/./", as the counterexample shows. -/
theorem icecake_C8_amended (curdir root fp : String)
    (hidx : (pySplitext (pyBasename (relpathStr fp (pyJoin root "content")))).1 = "index")
    (hext : pageLikeExt (pySplitext (relpathStr fp (pyJoin root "content"))).2)
    (hfold : pyNormpath (pyJoin (pyDirname (relpathStr fp (pyJoin root "content"))) "") =
      pyDirname (relpathStr fp (pyJoin root "content"))) :
    (Page.init curdir root fp).slug = "" ∧
    (Page.init curdir root fp).url = "/" ++ (Page.init curdir root fp).folder ++ "/" := by
  constructor
  · simp only [Page.init]
    rw [if_pos hidx]
  · simp only [Page.init, urlOf]
    rw [if_pos hidx, if_pos hext, hfold]

/-- C8 witness: blog/index.md gets slug "" and URL /blog/. -/
theorem icecake_C8_witness :
    (Page.init "/site" "/site" "/site/content/blog/index.md").slug = "" ∧
    (Page.init "/site" "/site" "/site/content/blog/index.md").url =
      "/" ++ (Page.init "/site" "/site" "/site/content/blog/index.md").folder ++ "/" :=
  icecake_C8_amended "/site" "/site" "/site/content/blog/index.md"
    (by decide) (by decide) (by decide)

/-! ## Claim C4 -/

/-- C4: the claim states the intended idempotence and the code breaks it.
get_pages appends to self.pagedata without clearing it, so a second build
of the unchanged one-page project renders every page against a site whose
page list has doubled; with a template that displays the length of that
list (an ordinary Jinja expression over the site object every render
exposes), the first build writes "1" and the second build writes "2" to
the same output path, so the outputs are not byte-identical. -/
theorem icecake_C4_code_eval :
    buildWritesOf (siteB0.build "/s" diskOnePage mdIdModel lenRenderer) =
      [("/s/output/index.html", "1")] ∧
    buildWritesOf (siteB1.build "/s" diskOnePage mdIdModel lenRenderer) =
      [("/s/output/index.html", "2"), ("/s/output/index.html", "2")] ∧
    ("1" : String) ≠ "2" := by decide

/-! ## Claim C9 -/

/-- C9: the claim states the intended invariant and the code breaks it on
every call after the first.  With exactly one content file on disk, the
first get_pages call produces one Page for it, but a second call appends a
fresh parse of the same file to the existing pagedata instead of replacing
it, leaving two entries for one content file — duplicates the claim rules
out.  (build inherits this because it assigns pagedata from get_pages,
which returns the same appended-to list.) -/
theorem icecake_C9_code_eval :
    (diskOnePage.filterMap
      (fun pc => if pyStartswith pc.1 "/s/content/" then some pc.1 else none)).length = 1 ∧
    siteG1.pagedata.map Page.filepath = ["index.html"] ∧
    siteG2.pagedata.map Page.filepath = ["index.html", "index.html"] := by decide

/-! ## Claim C10 -/

/-- C10, confirmed.  When pages is called with an order but neither a path
nor a tag filter, items is still an alias of self.pagedata, so the
in-place sort reorders the stored sequence: the returned site's pagedata
is the sorted list.  When a path or tag filter is given, the filters have
rebound items to fresh lists, so the sort does not touch pagedata and the
site is returned unchanged. -/
theorem icecake_C10 :
    (∀ (s : Site) (limit : Option Int) (o : String),
      (Site.pages s none none limit (some o)).1.pagedata = pySortByOrder o s.pagedata ∧
      (Site.pages s none none limit (some o)).2 =
        pyTruncate limit (pySortByOrder o s.pagedata)) ∧
    (∀ (s : Site) (pathF tagF : Option String) (limit : Option Int) (order : Option String),
      pathF ≠ none ∨ tagF ≠ none →
      (Site.pages s pathF tagF limit order).1 = s) := by
  constructor
  · intro s limit o
    constructor
    · simp [Site.pages]
    · simp [Site.pages]
  · intro s pathF tagF limit order h
    have hcond : ¬ (pathF = none ∧ tagF = none) := by
      rintro ⟨h1, h2⟩
      rcases h with h | h
      · exact h h1
      · exact h h2
    cases order with
    | none => simp [Site.pages]
    | some o =>
      simp only [Site.pages]
      rw [if_neg hcond]

/-- C10 witness: on a concrete two-page site, an order-only query stores
the sorted list, while a path-filtered query leaves the site unchanged. -/
theorem icecake_C10_witness :
    (Site.pages siteQfix none none none (some "title")).1.pagedata =
      pySortByOrder "title" siteQfix.pagedata ∧
    (Site.pages siteQfix (some "a") none none (some "title")).1 = siteQfix :=
  ⟨(icecake_C10.1 siteQfix none "title").1,
   icecake_C10.2 siteQfix (some "a") none none (some "title") (Or.inl (by decide))⟩

end Icecake
